import Mathlib

/-!
Verification of the enforcement lifecycle engine of `dastardly-daemon`
(`src/enforcement_new/`): action taxonomy, record state machine, store,
handler registry dispatch and the orchestration service.

Shallow embedding conventions:
* timestamps (`chrono::DateTime<Utc>`) are modelled as `Nat` seconds; each
  operation that reads the wall clock (`Utc::now()`) takes the current
  instant as an explicit `now : Nat` argument, and the several clock reads
  inside one operation are identified with that single instant;
* the record's UUID, generated randomly in `EnforcementRecord::new`, is an
  explicit argument;
* `&mut self` methods returning `Result<(), EnforcementError>` become pure
  functions returning `Except EnforcementError` of the updated value; an
  error result leaves the caller's value untouched, exactly as the Rust
  methods return before mutating anything;
* the concurrent `DashMap<String, EnforcementRecord>` is an association
  list `List (String × EnforcementRecord)` (the claims are about the
  single-threaded functional behaviour of the store's operations);
* the service's handler invocations perform Discord I/O whose outcome the
  service only logs; they are modelled as trace events (`Event`), so that
  the order and number of store transitions and handler calls is visible.
-/

/-- `EnforcementState` from `record.rs`: the lifecycle states. -/
inductive EnforcementState where
  | Pending
  | Active
  | Reversed
  | Completed
  | Cancelled
deriving DecidableEq, Repr

/-- `ActionParams` from `action.rs`: duration (seconds) and audit reason. -/
structure ActionParams where
  duration : Option Nat
  reason : Option String
deriving DecidableEq, Repr

/-- `HauntParams` from `action.rs`: parameters of `VoiceChannelHaunt`. -/
structure HauntParams where
  teleport_count : Option Nat
  interval : Option Nat
  return_to_origin : Option Bool
  original_channel_id : Option Nat
deriving DecidableEq, Repr

/-- `EnforcementAction` from `action.rs`: the closed action taxonomy. -/
inductive EnforcementAction where
  | None
  | Mute (params : ActionParams)
  | Ban (params : ActionParams)
  | Kick (params : ActionParams)
  | VoiceMute (params : ActionParams)
  | VoiceDeafen (params : ActionParams)
  | VoiceDisconnect (params : ActionParams)
  | VoiceChannelHaunt (params : HauntParams)
deriving DecidableEq, Repr

/-- `EnforcementActionType` from `action.rs`: the kind tags. -/
inductive EnforcementActionType where
  | None
  | Mute
  | Ban
  | Kick
  | VoiceMute
  | VoiceDeafen
  | VoiceDisconnect
  | VoiceChannelHaunt
deriving DecidableEq, Repr

/-- `EnforcementError` from `error.rs`. The Discord API payload is opaque. -/
inductive EnforcementError where
  | InvalidStateTransition
  | NotFound (id : String)
  | DiscordApi
  | GuildOrMemberNotFound (msg : String)
  | ValidationFailed (msg : String)
  | NotInVoiceChannel
  | NoVoiceChannels (guild : Nat)
  | Other (msg : String)
deriving DecidableEq, Repr

/-- `ActionParams::has_duration`:
`self.duration.is_some() && self.duration.unwrap() > 0`. -/
def ActionParams.has_duration (p : ActionParams) : Bool :=
  p.duration.isSome && decide (0 < p.duration.getD 0)

/-- `EnforcementAction::get_type` from `action.rs`. -/
def EnforcementAction.get_type : EnforcementAction → EnforcementActionType
  | .None => .None
  | .Mute _ => .Mute
  | .Ban _ => .Ban
  | .Kick _ => .Kick
  | .VoiceMute _ => .VoiceMute
  | .VoiceDeafen _ => .VoiceDeafen
  | .VoiceDisconnect _ => .VoiceDisconnect
  | .VoiceChannelHaunt _ => .VoiceChannelHaunt

/-- `EnforcementAction::needs_reversal` from `action.rs`. -/
def EnforcementAction.needs_reversal : EnforcementAction → Bool
  | .Mute p | .Ban p | .VoiceMute p | .VoiceDeafen p => p.has_duration
  | .Kick _ | .VoiceDisconnect _ | .VoiceChannelHaunt _ | .None => false

/-- `EnforcementAction::is_immediate` from `action.rs`. -/
def EnforcementAction.is_immediate : EnforcementAction → Bool
  | .Kick p | .VoiceDisconnect p =>
      !p.has_duration || decide (p.duration.getD 0 = 0)
  | .VoiceChannelHaunt p =>
      p.interval.isNone || decide (p.interval.getD 1 = 0)
  | .Mute _ | .Ban _ | .VoiceMute _ | .VoiceDeafen _ | .None => true

/-- `EnforcementRecord` from `record.rs` (including the legacy `executed`
flag). Timestamps are `Nat` seconds. -/
structure EnforcementRecord where
  id : String
  warning_id : String
  user_id : Nat
  guild_id : Nat
  action : EnforcementAction
  execute_at : Nat
  reverse_at : Option Nat
  state : EnforcementState
  created_at : Nat
  executed_at : Option Nat
  reversed_at : Option Nat
  executed : Bool
deriving DecidableEq, Repr

/-- `EnforcementRecord::calculate_execute_time`: scheduling delay for
`Kick`/`VoiceDisconnect` (from `duration`) and `VoiceChannelHaunt` (from
`interval`); every other kind executes at `now`. -/
def EnforcementRecord.calculate_execute_time
    (action : EnforcementAction) (now : Nat) : Nat :=
  match action with
  | .Kick params | .VoiceDisconnect params =>
      match params.duration with
      | some delay => if 0 < delay then now + delay else now
      | none => now
  | .VoiceChannelHaunt params =>
      match params.interval with
      | some interval => if 0 < interval then now + interval else now
      | none => now
  | _ => now

/-- `EnforcementRecord::new`: fresh record in `Pending` with
`execute_at = calculate_execute_time(action)` and no timestamps stamped. -/
def EnforcementRecord.new (warning_id : String) (user_id guild_id : Nat)
    (action : EnforcementAction) (id : String) (now : Nat) : EnforcementRecord :=
  { id := id
    warning_id := warning_id
    user_id := user_id
    guild_id := guild_id
    action := action
    execute_at := EnforcementRecord.calculate_execute_time action now
    reverse_at := none
    state := .Pending
    created_at := now
    executed_at := none
    reversed_at := none
    executed := false }

/-- `EnforcementRecord::calculate_reversal_time`: `now + duration` for the
four reversible kinds when `duration > 0`, guarded by `needs_reversal`. -/
def EnforcementRecord.calculate_reversal_time
    (r : EnforcementRecord) (now : Nat) : Option Nat :=
  if !r.action.needs_reversal then none
  else
    match r.action with
    | .Mute params | .Ban params | .VoiceMute params | .VoiceDeafen params =>
        match params.duration with
        | some duration => if 0 < duration then some (now + duration) else none
        | none => none
    | _ => none

/-- `EnforcementRecord::execute`: legal only from `Pending`; computes
`reverse_at`, moves to `Active` when a reversal is scheduled and to
`Completed` otherwise, stamps `executed_at` and the legacy flag. -/
def EnforcementRecord.execute (r : EnforcementRecord) (now : Nat) :
    Except EnforcementError EnforcementRecord :=
  if r.state ≠ .Pending then .error .InvalidStateTransition
  else
    let reverse_at := r.calculate_reversal_time now
    .ok { r with
          reverse_at := reverse_at
          state := if reverse_at.isSome then .Active else .Completed
          executed_at := some now
          executed := true }

/-- `EnforcementRecord::reverse`: legal only from `Active`; moves to
`Reversed` and stamps `reversed_at`. -/
def EnforcementRecord.reverse (r : EnforcementRecord) (now : Nat) :
    Except EnforcementError EnforcementRecord :=
  if r.state ≠ .Active then .error .InvalidStateTransition
  else .ok { r with state := .Reversed, reversed_at := some now }

/-- `EnforcementRecord::cancel`: legal from `Pending` or `Active`; only the
`state` field is written (no cancellation timestamp exists). -/
def EnforcementRecord.cancel (r : EnforcementRecord) :
    Except EnforcementError EnforcementRecord :=
  if r.state ≠ .Pending ∧ r.state ≠ .Active then .error .InvalidStateTransition
  else .ok { r with state := .Cancelled }

/-- `EnforcementRecord::is_due_for_execution`. -/
def EnforcementRecord.is_due_for_execution (r : EnforcementRecord) (now : Nat) : Bool :=
  decide (r.state = .Pending) && decide (r.execute_at ≤ now)

/-- `EnforcementRecord::is_due_for_reversal`. -/
def EnforcementRecord.is_due_for_reversal (r : EnforcementRecord) (now : Nat) : Bool :=
  decide (r.state = .Active) && r.reverse_at.isSome
    && decide (r.reverse_at.getD 0 ≤ now)

/-! ## Store

`EnforcementStore` keeps a `DashMap<String, EnforcementRecord>`, modelled
as an association list. `lookupKey`/`setKey`/`insertKey` are the map
primitives: `lookupKey` is `DashMap::get`, `setKey` is the write-back of a
mutation performed through `DashMap::get_mut` (it rewrites the value at an
existing key), and `insertKey` is `DashMap::insert` (replace the value at
the key when present, otherwise add the entry). -/

def lookupKey {α : Type} : List (String × α) → String → Option α
  | [], _ => none
  | (k, v) :: rest, id => if k = id then some v else lookupKey rest id

def setKey {α : Type} : List (String × α) → String → α → List (String × α)
  | [], _, _ => []
  | (k, v) :: rest, id, r => if k = id then (k, r) :: rest else (k, v) :: setKey rest id r

def insertKey {α : Type} : List (String × α) → String → α → List (String × α)
  | [], id, r => [(id, r)]
  | (k, v) :: rest, id, r =>
      if k = id then (id, r) :: rest else (k, v) :: insertKey rest id r

/-- `EnforcementStore` from `store.rs`: the single map of all records. -/
structure EnforcementStore where
  records : List (String × EnforcementRecord)
deriving DecidableEq, Repr

/-- `EnforcementStore::get`. -/
def EnforcementStore.get (s : EnforcementStore) (id : String) : Option EnforcementRecord :=
  lookupKey s.records id

/-- `EnforcementStore::add`: `self.records.insert(record.id.clone(), record)`;
total (no failure path), silently replacing any record already keyed by
the same id. -/
def EnforcementStore.add (s : EnforcementStore) (record : EnforcementRecord) :
    EnforcementStore :=
  ⟨insertKey s.records record.id record⟩

/-- `EnforcementStore::execute_enforcement`: looks the record up, checks
`Pending`, runs the record-level `execute` and writes it back, returning a
clone of the updated record. On any error the map is untouched. -/
def EnforcementStore.execute_enforcement (s : EnforcementStore) (id : String)
    (now : Nat) : Except EnforcementError (EnforcementRecord × EnforcementStore) :=
  match s.get id with
  | some record =>
      if record.state ≠ .Pending then .error .InvalidStateTransition
      else
        match record.execute now with
        | .ok r => .ok (r, ⟨setKey s.records id r⟩)
        | .error e => .error e
  | none => .error (.NotFound id)

/-- `EnforcementStore::reverse_enforcement`. -/
def EnforcementStore.reverse_enforcement (s : EnforcementStore) (id : String)
    (now : Nat) : Except EnforcementError (EnforcementRecord × EnforcementStore) :=
  match s.get id with
  | some record =>
      if record.state ≠ .Active then .error .InvalidStateTransition
      else
        match record.reverse now with
        | .ok r => .ok (r, ⟨setKey s.records id r⟩)
        | .error e => .error e
  | none => .error (.NotFound id)

/-- `EnforcementStore::cancel_enforcement`. -/
def EnforcementStore.cancel_enforcement (s : EnforcementStore) (id : String) :
    Except EnforcementError (EnforcementRecord × EnforcementStore) :=
  match s.get id with
  | some record =>
      if record.state ≠ .Pending ∧ record.state ≠ .Active then
        .error .InvalidStateTransition
      else
        match record.cancel with
        | .ok r => .ok (r, ⟨setKey s.records id r⟩)
        | .error e => .error e
  | none => .error (.NotFound id)

/-- The loop condition of `EnforcementStore::cancel_all_for_user`:
`record.user_id == user_id && record.guild_id == guild_id &&
(record.state == Pending || record.state == Active)`. -/
def cancelTarget (user_id guild_id : Nat) (record : EnforcementRecord) : Prop :=
  record.user_id = user_id ∧ record.guild_id = guild_id ∧
    (record.state = .Pending ∨ record.state = .Active)

instance (user_id guild_id : Nat) (record : EnforcementRecord) :
    Decidable (cancelTarget user_id guild_id record) := by
  unfold cancelTarget
  infer_instance

/-- Loop body of `EnforcementStore::cancel_all_for_user`: when the visited
entry belongs to the user/guild pair and is `Pending` or `Active`, cancel
it through `cancel_enforcement` (keyed by the record's own `id` field) and
collect the cancelled record; otherwise skip it. -/
def cancelAllStep (user_id guild_id : Nat)
    (acc : List EnforcementRecord × EnforcementStore)
    (entry : String × EnforcementRecord) :
    List EnforcementRecord × EnforcementStore :=
  let record := entry.2
  if cancelTarget user_id guild_id record then
    match acc.2.cancel_enforcement record.id with
    | .ok (r, s) => (acc.1 ++ [r], s)
    | .error _ => acc
  else acc

/-- `EnforcementStore::cancel_all_for_user`: iterate over every entry,
cancelling those of the user/guild pair that are `Pending`/`Active`; the
visited values are the entries present when the iteration started (the
loop only ever rewrites the entry it is visiting). -/
def EnforcementStore.cancel_all_for_user (s : EnforcementStore)
    (user_id guild_id : Nat) : List EnforcementRecord × EnforcementStore :=
  s.records.foldl (cancelAllStep user_id guild_id) ([], s)

/-! ## Handler registry (`handler.rs`)

Each handler's `execute`/`reverse` validates the action payload before
touching the Discord API; everything past that validation is external I/O.
`HandlerCheck` captures exactly the validation prefix: `proceeds` means
control reaches the platform interaction, `validationFailed msg` means the
handler returns `EnforcementError::ValidationFailed(msg)` without doing
anything. -/

inductive HandlerCheck where
  | proceeds
  | validationFailed (msg : String)
deriving DecidableEq, Repr

/-- A handler's validation prefixes for `execute` and `reverse`. -/
structure ActionHandler where
  run_execute : EnforcementAction → HandlerCheck
  run_reverse : EnforcementAction → HandlerCheck

/-- `NoopHandler`: both directions succeed unconditionally. -/
def NoopHandler : ActionHandler where
  run_execute _ := .proceeds
  run_reverse _ := .proceeds

/-- `MuteHandler`: `execute` requires a `Mute` payload; `reverse` is a
no-op (Discord timeouts lapse on their own). -/
def MuteHandler : ActionHandler where
  run_execute action :=
    match action with
    | .Mute _ => .proceeds
    | _ => .validationFailed "Expected Mute action"
  run_reverse _ := .proceeds

/-- `BanHandler`: `execute` first runs
`if matches!(action.get_type(), EnforcementActionType::Ban) { return
Err(ValidationFailed("Ban action not supported")) }` — a guard on the
handler's own kind — and only then matches the `Ban` payload; `reverse`
unbans (no payload validation). -/
def BanHandler : ActionHandler where
  run_execute action :=
    if action.get_type = .Ban then .validationFailed "Ban action not supported"
    else
      match action with
      | .Ban _ => .proceeds
      | _ => .validationFailed "Expected Ban action"
  run_reverse _ := .proceeds

/-- `KickHandler`: `execute` carries the same own-kind guard as
`BanHandler` (`"Kick action not supported"`), then matches the `Kick`
payload; `reverse` is a no-op. -/
def KickHandler : ActionHandler where
  run_execute action :=
    if action.get_type = .Kick then .validationFailed "Kick action not supported"
    else
      match action with
      | .Kick _ => .proceeds
      | _ => .validationFailed "Expected Kick action"
  run_reverse _ := .proceeds

/-- `VoiceMuteHandler`: `execute` requires a `VoiceMute` payload. -/
def VoiceMuteHandler : ActionHandler where
  run_execute action :=
    match action with
    | .VoiceMute _ => .proceeds
    | _ => .validationFailed "Expected VoiceMute action"
  run_reverse _ := .proceeds

/-- `VoiceDeafenHandler`: `execute` requires a `VoiceDeafen` payload. -/
def VoiceDeafenHandler : ActionHandler where
  run_execute action :=
    match action with
    | .VoiceDeafen _ => .proceeds
    | _ => .validationFailed "Expected VoiceDeafen action"
  run_reverse _ := .proceeds

/-- `VoiceDisconnectHandler`: no payload validation in either direction. -/
def VoiceDisconnectHandler : ActionHandler where
  run_execute _ := .proceeds
  run_reverse _ := .proceeds

/-- `VoiceChannelHauntHandler`: `execute` requires a `VoiceChannelHaunt`
payload. -/
def VoiceChannelHauntHandler : ActionHandler where
  run_execute action :=
    match action with
    | .VoiceChannelHaunt _ => .proceeds
    | _ => .validationFailed "Expected VoiceChannelHaunt action"
  run_reverse _ := .proceeds

/-- The lookup of `ActionHandlerRegistry::new()`'s map: `new` registers
exactly one handler per kind, so `get` is this total table. -/
def ActionHandlerRegistry.get : EnforcementActionType → Option ActionHandler
  | .None => some NoopHandler
  | .Mute => some MuteHandler
  | .Ban => some BanHandler
  | .Kick => some KickHandler
  | .VoiceMute => some VoiceMuteHandler
  | .VoiceDeafen => some VoiceDeafenHandler
  | .VoiceDisconnect => some VoiceDisconnectHandler
  | .VoiceChannelHaunt => some VoiceChannelHauntHandler

/-- `ActionHandlerRegistry::execute`: dispatch on `action.get_type()`;
`ValidationFailed` when no handler is registered for the kind. -/
def ActionHandlerRegistry.execute (action : EnforcementAction) : HandlerCheck :=
  match ActionHandlerRegistry.get action.get_type with
  | some handler => handler.run_execute action
  | none => .validationFailed "No handler registered for action type"

/-- `ActionHandlerRegistry::reverse`: dispatch on `action.get_type()`. -/
def ActionHandlerRegistry.reverse (action : EnforcementAction) : HandlerCheck :=
  match ActionHandlerRegistry.get action.get_type with
  | some handler => handler.run_reverse action
  | none => .validationFailed "No handler registered for action type"

/-! ## Service (`service.rs`)

The service owns the store plus the registry; its per-record operations
are modelled as functions of the store that also emit a chronological
trace of `Event`s: each store transition and each handler invocation, in
the order the Rust code performs them. Handler failures are only logged
by the service, so they do not influence control flow and the events
record invocations regardless of the handlers' I/O outcome. -/

inductive Event where
  | storeExecute (id : String)
  | storeReverse (id : String)
  | storeCancel (id : String)
  | handlerExecute (id : String)
  | handlerReverse (id : String)
deriving DecidableEq, BEq, Repr

/-- Whether (the first occurrence of) `a` is followed later in the trace
by an occurrence of `b`. -/
def occursBefore : List Event → Event → Event → Bool
  | [], _, _ => false
  | e :: rest, a, b => if e = a then rest.contains b else occursBefore rest a b

/-- `EnforcementService::process_enforcement`: branch on the record's
state; `Pending` → store `execute_enforcement` then handler `execute`
(with no due-time check); `Active` → store `reverse_enforcement` then
handler `reverse`, but only when `reverse_at` is set and has passed;
any other state is a no-op. Store failures inside the branches are
swallowed (`if let Ok`), an unknown id is `NotFound`. -/
def EnforcementService.process_enforcement (s : EnforcementStore) (id : String)
    (now : Nat) : Except EnforcementError (EnforcementStore × List Event) :=
  match s.get id with
  | some record =>
      match record.state with
      | .Pending =>
          match s.execute_enforcement id now with
          | .ok (_, s1) => .ok (s1, [.storeExecute id, .handlerExecute id])
          | .error _ => .ok (s, [])
      | .Active =>
          match record.reverse_at with
          | some reverse_at =>
              if reverse_at ≤ now then
                match s.reverse_enforcement id now with
                | .ok (_, s1) => .ok (s1, [.storeReverse id, .handlerReverse id])
                | .error _ => .ok (s, [])
              else .ok (s, [])
          | none => .ok (s, [])
      | _ => .ok (s, [])
  | none => .error (.NotFound id)

/-- `EnforcementService::cancel_enforcement`: for an `Active` record the
store transition to `Cancelled` is performed first (`?` on failure) and
the handler's `reverse` is invoked afterwards; for every other state only
the store cancellation is attempted (`?` on failure), with no handler
call. Unknown id is `NotFound`. -/
def EnforcementService.cancel_enforcement (s : EnforcementStore) (id : String) :
    Except EnforcementError (EnforcementStore × List Event) :=
  match s.get id with
  | some record =>
      if record.state = .Active then
        match s.cancel_enforcement id with
        | .ok (_, s1) => .ok (s1, [.storeCancel id, .handlerReverse id])
        | .error e => .error e
      else
        match s.cancel_enforcement id with
        | .ok (_, s1) => .ok (s1, [.storeCancel id])
        | .error e => .error e
  | none => .error (.NotFound id)

example :
    (EnforcementRecord.new "w1" 111 222 (.Mute ⟨some 300, none⟩) "e1" 0).execute 5
      = .ok { (EnforcementRecord.new "w1" 111 222 (.Mute ⟨some 300, none⟩) "e1" 0) with
              state := .Active, reverse_at := some 305, executed_at := some 5,
              executed := true } := rfl

example :
    (EnforcementRecord.new "w2" 111 222 (.Kick ⟨some 0, none⟩) "e2" 7).execute 7
      = .ok { (EnforcementRecord.new "w2" 111 222 (.Kick ⟨some 0, none⟩) "e2" 7) with
              state := .Completed, executed_at := some 7, executed := true } := rfl

/-! ## Helper lemmas: association-list primitives -/

theorem lookupKey_insertKey_self {α : Type} (l : List (String × α)) (id : String) (v : α) :
    lookupKey (insertKey l id v) id = some v := by
  induction l with
  | nil => simp [insertKey, lookupKey]
  | cons e rest ih =>
    obtain ⟨k, w⟩ := e
    by_cases hk : k = id
    · simp [insertKey, hk, lookupKey]
    · simp [insertKey, hk, lookupKey, ih]

theorem lookupKey_insertKey_of_ne {α : Type} (l : List (String × α))
    (id id' : String) (v : α) (h : id' ≠ id) :
    lookupKey (insertKey l id v) id' = lookupKey l id' := by
  induction l with
  | nil => simp [insertKey, lookupKey, Ne.symm h]
  | cons e rest ih =>
    obtain ⟨k, w⟩ := e
    by_cases hk : k = id
    · subst hk
      simp [insertKey, lookupKey, Ne.symm h]
    · simp [insertKey, hk, lookupKey, ih]

theorem lookupKey_setKey_self {α : Type} (l : List (String × α)) (id : String) (v : α) :
    lookupKey (setKey l id v) id = (lookupKey l id).map (fun _ => v) := by
  induction l with
  | nil => simp [setKey, lookupKey]
  | cons e rest ih =>
    obtain ⟨k, w⟩ := e
    by_cases hk : k = id
    · simp [setKey, hk, lookupKey]
    · simp [setKey, hk, lookupKey, ih]

theorem lookupKey_setKey_of_ne {α : Type} (l : List (String × α))
    (id id' : String) (v : α) (h : id' ≠ id) :
    lookupKey (setKey l id v) id' = lookupKey l id' := by
  induction l with
  | nil => simp [setKey]
  | cons e rest ih =>
    obtain ⟨k, w⟩ := e
    by_cases hk : k = id
    · subst hk
      simp [setKey, lookupKey, Ne.symm h]
    · simp [setKey, hk, lookupKey, ih]

theorem lookupKey_append_of_not_mem {α : Type} (done rest : List (String × α))
    (id : String) (h : id ∉ done.map Prod.fst) :
    lookupKey (done ++ rest) id = lookupKey rest id := by
  induction done with
  | nil => simp
  | cons e done ih =>
    obtain ⟨k, w⟩ := e
    simp only [List.map_cons, List.mem_cons, not_or] at h
    simp [lookupKey, Ne.symm h.1, ih h.2]

theorem setKey_append_of_not_mem {α : Type} (done rest : List (String × α))
    (id : String) (v : α) (h : id ∉ done.map Prod.fst) :
    setKey (done ++ rest) id v = done ++ setKey rest id v := by
  induction done with
  | nil => simp
  | cons e done ih =>
    obtain ⟨k, w⟩ := e
    simp only [List.map_cons, List.mem_cons, not_or] at h
    simp [setKey, Ne.symm h.1, ih h.2]

/-! ## Helper lemmas: the record state machine -/

/-- The `duration` field of the four reversible kinds (the delay before the
scheduled reversal); `none` for every other kind. Statement vocabulary for
the claims that speak of "the action's duration". -/
def reversalDuration : EnforcementAction → Option Nat
  | .Mute p | .Ban p | .VoiceMute p | .VoiceDeafen p => p.duration
  | _ => none

theorem has_duration_iff (p : ActionParams) :
    p.has_duration = true ↔ ∃ d, p.duration = some d ∧ 0 < d := by
  cases hp : p.duration with
  | none => simp [ActionParams.has_duration, hp]
  | some d => simp [ActionParams.has_duration, hp]

theorem needs_reversal_duration (a : EnforcementAction)
    (h : a.needs_reversal = true) :
    ∃ d, reversalDuration a = some d ∧ 0 < d := by
  cases a <;>
    simp [EnforcementAction.needs_reversal, has_duration_iff, reversalDuration] at h ⊢ <;>
    exact h

theorem calculate_reversal_time_of_not (r : EnforcementRecord) (now : Nat)
    (h : r.action.needs_reversal = false) :
    r.calculate_reversal_time now = none := by
  simp [EnforcementRecord.calculate_reversal_time, h]

theorem calculate_reversal_time_of (r : EnforcementRecord) (now : Nat)
    (h : r.action.needs_reversal = true) :
    r.calculate_reversal_time now = some (now + (reversalDuration r.action).getD 0) := by
  obtain ⟨d, hd, hdpos⟩ := needs_reversal_duration r.action h
  cases ha : r.action <;> rw [ha] at hd h <;>
    simp [EnforcementAction.needs_reversal] at h <;>
    simp only [reversalDuration] at hd <;>
    simp [EnforcementRecord.calculate_reversal_time, ha, h,
      EnforcementAction.needs_reversal, reversalDuration, hd, hdpos]

theorem execute_error_of_not_pending (r : EnforcementRecord) (now : Nat)
    (h : r.state ≠ .Pending) :
    r.execute now = .error .InvalidStateTransition := by
  simp [EnforcementRecord.execute, h]

theorem execute_pending_eq (r : EnforcementRecord) (now : Nat)
    (h : r.state = .Pending) :
    r.execute now = .ok { r with
      reverse_at := r.calculate_reversal_time now,
      state := if (r.calculate_reversal_time now).isSome then .Active else .Completed,
      executed_at := some now,
      executed := true } := by
  simp [EnforcementRecord.execute, h]

theorem execute_ok_dest (r r' : EnforcementRecord) (now : Nat)
    (h : r.execute now = .ok r') :
    r.state = .Pending ∧ r' = { r with
      reverse_at := r.calculate_reversal_time now,
      state := if (r.calculate_reversal_time now).isSome then .Active else .Completed,
      executed_at := some now,
      executed := true } := by
  by_cases hs : r.state = .Pending
  · rw [execute_pending_eq r now hs] at h
    exact ⟨hs, (by simpa using h.symm)⟩
  · rw [execute_error_of_not_pending r now hs] at h
    exact absurd h (by simp)

theorem reverse_error_of_not_active (r : EnforcementRecord) (now : Nat)
    (h : r.state ≠ .Active) :
    r.reverse now = .error .InvalidStateTransition := by
  simp [EnforcementRecord.reverse, h]

theorem reverse_active_eq (r : EnforcementRecord) (now : Nat)
    (h : r.state = .Active) :
    r.reverse now = .ok { r with state := .Reversed, reversed_at := some now } := by
  simp [EnforcementRecord.reverse, h]

theorem reverse_ok_dest (r r' : EnforcementRecord) (now : Nat)
    (h : r.reverse now = .ok r') :
    r.state = .Active ∧ r' = { r with state := .Reversed, reversed_at := some now } := by
  by_cases hs : r.state = .Active
  · rw [reverse_active_eq r now hs] at h
    exact ⟨hs, (by simpa using h.symm)⟩
  · rw [reverse_error_of_not_active r now hs] at h
    exact absurd h (by simp)

theorem cancel_error_of_terminal (r : EnforcementRecord)
    (h : r.state ≠ .Pending ∧ r.state ≠ .Active) :
    r.cancel = .error .InvalidStateTransition := by
  simp [EnforcementRecord.cancel, h]

theorem cancel_eq_of_cancellable (r : EnforcementRecord)
    (h : r.state = .Pending ∨ r.state = .Active) :
    r.cancel = .ok { r with state := .Cancelled } := by
  have hg : ¬(r.state ≠ .Pending ∧ r.state ≠ .Active) := by
    rcases h with h | h <;> simp [h]
  simp [EnforcementRecord.cancel, hg]

theorem cancel_ok_dest (r r' : EnforcementRecord)
    (h : r.cancel = .ok r') :
    (r.state = .Pending ∨ r.state = .Active) ∧
      r' = { r with state := .Cancelled } := by
  by_cases hs : r.state = .Pending ∨ r.state = .Active
  · rw [cancel_eq_of_cancellable r hs] at h
    exact ⟨hs, (by simpa using h.symm)⟩
  · rw [cancel_error_of_terminal r (by tauto)] at h
    exact absurd h (by simp)

/-! ## Helper lemmas: store transitions -/

theorem store_execute_ok (s : EnforcementStore) (id : String) (now : Nat)
    (r r' : EnforcementRecord) (hget : s.get id = some r)
    (hex : r.execute now = .ok r') :
    s.execute_enforcement id now = .ok (r', ⟨setKey s.records id r'⟩) := by
  have hp : r.state = .Pending := (execute_ok_dest r r' now hex).1
  simp [EnforcementStore.execute_enforcement, hget, hp, hex]

theorem store_execute_error_of_not_pending (s : EnforcementStore) (id : String)
    (now : Nat) (r : EnforcementRecord) (hget : s.get id = some r)
    (h : r.state ≠ .Pending) :
    s.execute_enforcement id now = .error .InvalidStateTransition := by
  simp [EnforcementStore.execute_enforcement, hget, h]

theorem store_reverse_ok (s : EnforcementStore) (id : String) (now : Nat)
    (r r' : EnforcementRecord) (hget : s.get id = some r)
    (hrev : r.reverse now = .ok r') :
    s.reverse_enforcement id now = .ok (r', ⟨setKey s.records id r'⟩) := by
  have ha : r.state = .Active := (reverse_ok_dest r r' now hrev).1
  simp [EnforcementStore.reverse_enforcement, hget, ha, hrev]

theorem store_reverse_error_of_not_active (s : EnforcementStore) (id : String)
    (now : Nat) (r : EnforcementRecord) (hget : s.get id = some r)
    (h : r.state ≠ .Active) :
    s.reverse_enforcement id now = .error .InvalidStateTransition := by
  simp [EnforcementStore.reverse_enforcement, hget, h]

theorem store_cancel_ok (s : EnforcementStore) (id : String)
    (r : EnforcementRecord) (hget : s.get id = some r)
    (hPA : r.state = .Pending ∨ r.state = .Active) :
    s.cancel_enforcement id =
      .ok ({ r with state := .Cancelled },
           ⟨setKey s.records id { r with state := .Cancelled }⟩) := by
  have hguard : ¬(r.state ≠ .Pending ∧ r.state ≠ .Active) := by
    rcases hPA with h | h <;> simp [h]
  simp [EnforcementStore.cancel_enforcement, hget, hguard,
    cancel_eq_of_cancellable r hPA]

theorem store_cancel_error_of_terminal (s : EnforcementStore) (id : String)
    (r : EnforcementRecord) (hget : s.get id = some r)
    (h : r.state ≠ .Pending ∧ r.state ≠ .Active) :
    s.cancel_enforcement id = .error .InvalidStateTransition := by
  simp [EnforcementStore.cancel_enforcement, hget, h]

/-! ## C1: legal state transitions only -/

/-- C1. Every transition operation — record-level `execute`/`reverse`/
`cancel` and the store's `execute_enforcement`/`reverse_enforcement`/
`cancel_enforcement` — moves a record's `state` only along
`Pending → Active`, `Pending → Completed`, `Active → Reversed`,
`Pending → Cancelled`, `Active → Cancelled`; attempted on a record whose
state is not a legal source state it returns `InvalidStateTransition` and
changes nothing (in this functional embedding the error branches return no
updated record or store, so the caller's value is the unchanged one); in
particular a second `execute` on an already-executed record fails this
way. -/
theorem state_transitions_only_legal (r : EnforcementRecord)
    (s : EnforcementStore) (id : String) (now now2 : Nat) :
    (∀ r', r.execute now = .ok r' →
      r.state = .Pending ∧ (r'.state = .Active ∨ r'.state = .Completed))
  ∧ (∀ r', r.reverse now = .ok r' → r.state = .Active ∧ r'.state = .Reversed)
  ∧ (∀ r', r.cancel = .ok r' →
      (r.state = .Pending ∨ r.state = .Active) ∧ r'.state = .Cancelled)
  ∧ (r.state ≠ .Pending → r.execute now = .error .InvalidStateTransition)
  ∧ (r.state ≠ .Active → r.reverse now = .error .InvalidStateTransition)
  ∧ (r.state ≠ .Pending ∧ r.state ≠ .Active →
      r.cancel = .error .InvalidStateTransition)
  ∧ (∀ r', r.execute now = .ok r' →
      r'.execute now2 = .error .InvalidStateTransition)
  ∧ (∀ r' s', s.execute_enforcement id now = .ok (r', s') →
      ∃ r0, s.get id = some r0 ∧ r0.state = .Pending ∧
        (r'.state = .Active ∨ r'.state = .Completed))
  ∧ (∀ r' s', s.reverse_enforcement id now = .ok (r', s') →
      ∃ r0, s.get id = some r0 ∧ r0.state = .Active ∧ r'.state = .Reversed)
  ∧ (∀ r' s', s.cancel_enforcement id = .ok (r', s') →
      ∃ r0, s.get id = some r0 ∧ (r0.state = .Pending ∨ r0.state = .Active) ∧
        r'.state = .Cancelled)
  ∧ (∀ r0, s.get id = some r0 → r0.state ≠ .Pending →
      s.execute_enforcement id now = .error .InvalidStateTransition)
  ∧ (∀ r0, s.get id = some r0 → r0.state ≠ .Active →
      s.reverse_enforcement id now = .error .InvalidStateTransition)
  ∧ (∀ r0, s.get id = some r0 → r0.state ≠ .Pending → r0.state ≠ .Active →
      s.cancel_enforcement id = .error .InvalidStateTransition) := by
  refine ⟨?_, ?_, ?_, ?_, ?_, ?_, ?_, ?_, ?_, ?_, ?_, ?_, ?_⟩
  · intro r' h
    obtain ⟨hp, hr⟩ := execute_ok_dest r r' now h
    subst hr
    refine ⟨hp, ?_⟩
    by_cases hrv : (r.calculate_reversal_time now).isSome <;> simp [hrv]
  · intro r' h
    obtain ⟨ha, hr⟩ := reverse_ok_dest r r' now h
    subst hr
    exact ⟨ha, rfl⟩
  · intro r' h
    obtain ⟨ha, hr⟩ := cancel_ok_dest r r' h
    subst hr
    exact ⟨ha, rfl⟩
  · exact fun h => execute_error_of_not_pending r now h
  · exact fun h => reverse_error_of_not_active r now h
  · exact fun h => cancel_error_of_terminal r h
  · intro r' h
    obtain ⟨hp, hr⟩ := execute_ok_dest r r' now h
    subst hr
    apply execute_error_of_not_pending
    by_cases hrv : (r.calculate_reversal_time now).isSome <;> simp [hrv]
  · intro r' s' h
    cases hget : s.get id with
    | none => simp [EnforcementStore.execute_enforcement, hget] at h
    | some r0 =>
      refine ⟨r0, rfl, ?_⟩
      by_cases hp : r0.state = .Pending
      · rw [store_execute_ok s id now r0 _ hget (execute_pending_eq r0 now hp)] at h
        obtain ⟨h1, _⟩ := by simpa using h
        subst h1
        refine ⟨hp, ?_⟩
        by_cases hrv : (r0.calculate_reversal_time now).isSome <;> simp [hrv]
      · rw [store_execute_error_of_not_pending s id now r0 hget hp] at h
        exact absurd h (by simp)
  · intro r' s' h
    cases hget : s.get id with
    | none => simp [EnforcementStore.reverse_enforcement, hget] at h
    | some r0 =>
      refine ⟨r0, rfl, ?_⟩
      by_cases ha : r0.state = .Active
      · rw [store_reverse_ok s id now r0 _ hget (reverse_active_eq r0 now ha)] at h
        obtain ⟨h1, _⟩ := by simpa using h
        subst h1
        exact ⟨ha, rfl⟩
      · rw [store_reverse_error_of_not_active s id now r0 hget ha] at h
        exact absurd h (by simp)
  · intro r' s' h
    cases hget : s.get id with
    | none => simp [EnforcementStore.cancel_enforcement, hget] at h
    | some r0 =>
      refine ⟨r0, rfl, ?_⟩
      by_cases hPA : r0.state = .Pending ∨ r0.state = .Active
      · rw [store_cancel_ok s id r0 hget hPA] at h
        obtain ⟨h1, _⟩ := by simpa using h
        subst h1
        exact ⟨hPA, rfl⟩
      · rw [store_cancel_error_of_terminal s id r0 hget (by tauto)] at h
        exact absurd h (by simp)
  · exact fun r0 hget h => store_execute_error_of_not_pending s id now r0 hget h
  · exact fun r0 hget h => store_reverse_error_of_not_active s id now r0 hget h
  · exact fun r0 hget h1 h2 =>
      store_cancel_error_of_terminal s id r0 hget ⟨h1, h2⟩

/-- Witness for C1 at a concrete record: executing a freshly created
`Mute(300)` record succeeds into `Active`, and a second `execute` on the
result returns `InvalidStateTransition`. -/
theorem state_transitions_only_legal_witness :
    ({ EnforcementRecord.new "w1" 111 222
         (EnforcementAction.Mute ⟨some 300, none⟩) "e1" 0 with
       state := EnforcementState.Active, reverse_at := some 300,
       executed_at := some 0, executed := true } : EnforcementRecord).execute 5
      = .error .InvalidStateTransition :=
  (state_transitions_only_legal
      (EnforcementRecord.new "w1" 111 222
        (EnforcementAction.Mute ⟨some 300, none⟩) "e1" 0)
      ⟨[]⟩ "e1" 0 5).2.2.2.2.2.2.1
    _ rfl

/-! ## C2: where a successful execute lands -/

/-- C2. From `Pending`, `execute` lands in `Completed` with
`reverse_at = none` when the action needs no reversal, and in `Active`
with `reverse_at = execution time + the action's duration` when it does;
both branches stamp `executed_at` with the execution time (and the legacy
`executed` flag). -/
theorem execute_lands_by_reversal_need (r : EnforcementRecord) (now : Nat)
    (h : r.state = EnforcementState.Pending) :
    (r.action.needs_reversal = false →
      r.execute now = .ok { r with
        state := .Completed, reverse_at := none,
        executed_at := some now, executed := true })
  ∧ (r.action.needs_reversal = true →
      0 < (reversalDuration r.action).getD 0 ∧
      r.execute now = .ok { r with
        state := .Active,
        reverse_at := some (now + (reversalDuration r.action).getD 0),
        executed_at := some now, executed := true }) := by
  constructor
  · intro hn
    rw [execute_pending_eq r now h, calculate_reversal_time_of_not r now hn]
    simp
  · intro hn
    obtain ⟨d, hd, hdpos⟩ := needs_reversal_duration r.action hn
    refine ⟨by simp [hd, hdpos], ?_⟩
    rw [execute_pending_eq r now h, calculate_reversal_time_of r now hn]
    simp

/-- Witness for C2: executing a fresh `Mute(300)` record at time 5 lands
in `Active` with `reverse_at = some 305`. -/
theorem execute_lands_by_reversal_need_witness :
    (0 : Nat) < 300 ∧
    (EnforcementRecord.new "w1" 111 222
        (EnforcementAction.Mute ⟨some 300, none⟩) "e1" 0).execute 5
      = .ok { EnforcementRecord.new "w1" 111 222
                (EnforcementAction.Mute ⟨some 300, none⟩) "e1" 0 with
              state := .Active, reverse_at := some 305,
              executed_at := some 5, executed := true } :=
  (execute_lands_by_reversal_need
      (EnforcementRecord.new "w1" 111 222
        (EnforcementAction.Mute ⟨some 300, none⟩) "e1" 0) 5 rfl).2 rfl

/-! ## C6: needs_reversal characterised -/

/-- C6. `needs_reversal()` is true exactly when the action's kind is one
of `Mute`, `Ban`, `VoiceMute`, `VoiceDeafen` and its `duration` parameter
is present and positive; for `Kick`, `VoiceDisconnect`,
`VoiceChannelHaunt` and `None` it is false regardless of parameters. -/
theorem needs_reversal_iff (a : EnforcementAction) :
    (a.needs_reversal = true ↔
      ((a.get_type = .Mute ∨ a.get_type = .Ban ∨ a.get_type = .VoiceMute ∨
        a.get_type = .VoiceDeafen) ∧ ∃ d, reversalDuration a = some d ∧ 0 < d))
  ∧ ((a.get_type = .Kick ∨ a.get_type = .VoiceDisconnect ∨
      a.get_type = .VoiceChannelHaunt ∨ a.get_type = .None) →
      a.needs_reversal = false) := by
  cases a <;>
    simp [EnforcementAction.needs_reversal, EnforcementAction.get_type,
      reversalDuration, has_duration_iff]

/-! ## C7: execute_at policy at creation -/

/-- The scheduling-relevant delay of an action: `duration` for `Kick` and
`VoiceDisconnect`, `interval` for `VoiceChannelHaunt`, absent otherwise.
Statement vocabulary for the claim's "delay values". -/
def delayValue : EnforcementAction → Option Nat
  | .Kick p | .VoiceDisconnect p => p.duration
  | .VoiceChannelHaunt p => p.interval
  | _ => none

/-- C7. A new record's `execute_at` is `created_at + duration` for
`Kick`/`VoiceDisconnect` with a positive duration, `created_at +
interval` for `VoiceChannelHaunt` with a positive interval, and exactly
`created_at` for every other kind and for absent-or-zero delays. -/
theorem new_execute_at_policy (warning_id id : String)
    (user_id guild_id now : Nat) (a : EnforcementAction) :
    (EnforcementRecord.new warning_id user_id guild_id a id now).created_at = now
  ∧ (∀ p d, (a = .Kick p ∨ a = .VoiceDisconnect p) → p.duration = some d → 0 < d →
      (EnforcementRecord.new warning_id user_id guild_id a id now).execute_at
        = (EnforcementRecord.new warning_id user_id guild_id a id now).created_at + d)
  ∧ (∀ p i, a = .VoiceChannelHaunt p → p.interval = some i → 0 < i →
      (EnforcementRecord.new warning_id user_id guild_id a id now).execute_at
        = (EnforcementRecord.new warning_id user_id guild_id a id now).created_at + i)
  ∧ ((delayValue a = none ∨ delayValue a = some 0) →
      (EnforcementRecord.new warning_id user_id guild_id a id now).execute_at
        = (EnforcementRecord.new warning_id user_id guild_id a id now).created_at) := by
  refine ⟨rfl, ?_, ?_, ?_⟩
  · rintro p d (rfl | rfl) hd hdpos <;>
      simp [EnforcementRecord.new, EnforcementRecord.calculate_execute_time, hd, hdpos]
  · rintro p i rfl hi hipos
    simp [EnforcementRecord.new, EnforcementRecord.calculate_execute_time, hi, hipos]
  · intro h
    have hcalc : EnforcementRecord.calculate_execute_time a now = now := by
      cases a <;> simp only [delayValue] at h <;>
        first
        | rfl
        | (rcases h with h | h <;>
            simp [EnforcementRecord.calculate_execute_time, h])
    simpa [EnforcementRecord.new] using hcalc

/-- Witness for C7: a `Kick` with a 100-second delay created at time 0 has
`execute_at = created_at + 100`. -/
theorem new_execute_at_policy_witness :
    (EnforcementRecord.new "w2" 111 222
        (EnforcementAction.Kick ⟨some 100, none⟩) "e2" 0).execute_at
      = (EnforcementRecord.new "w2" 111 222
          (EnforcementAction.Kick ⟨some 100, none⟩) "e2" 0).created_at + 100 :=
  (new_execute_at_policy "w2" "e2" 111 222 0
      (EnforcementAction.Kick ⟨some 100, none⟩)).2.1
    ⟨some 100, none⟩ 100 (Or.inl rfl) rfl (by decide)

/-! ## C9: cancel writes only the state field -/

/-- C9. A successful `cancel()` rewrites only `state` (to `Cancelled`):
`executed_at`, `reversed_at`, `reverse_at`, `execute_at`, `created_at`,
the identity fields and the legacy flag all keep their prior values, and
no cancellation timestamp is recorded anywhere — so a record cancelled
from `Active` still carries its `executed_at`/`reverse_at`, and one
cancelled from `Pending` carries no timestamp evidence at all. -/
theorem cancel_writes_only_state (r r' : EnforcementRecord)
    (h : r.cancel = .ok r') :
    r' = { r with state := EnforcementState.Cancelled } :=
  (cancel_ok_dest r r' h).2

/-- Witness for C9 at a concrete `Pending` record. -/
theorem cancel_writes_only_state_witness :
    ({ id := "e9", warning_id := "w1", user_id := 111, guild_id := 222,
       action := .Mute ⟨some 300, none⟩, execute_at := 0, reverse_at := none,
       state := .Cancelled, created_at := 0, executed_at := none,
       reversed_at := none, executed := false } : EnforcementRecord)
      = { EnforcementRecord.new "w1" 111 222
            (EnforcementAction.Mute ⟨some 300, none⟩) "e9" 0 with
          state := EnforcementState.Cancelled } :=
  cancel_writes_only_state
    (EnforcementRecord.new "w1" 111 222
      (EnforcementAction.Mute ⟨some 300, none⟩) "e9" 0) _ rfl

/-! ## C10: add never fails and silently replaces -/

/-- C10. `Store::add` is total (no failure path) and inserts
unconditionally: after `add`, `get` on the record's id yields exactly the
newly added record — silently replacing, with no error reported, whatever
record was previously stored under that id — while every other id's entry
is untouched. -/
theorem add_replaces_silently (s : EnforcementStore)
    (record : EnforcementRecord) (id' : String) :
    ((s.add record).get record.id = some record)
  ∧ (id' ≠ record.id → (s.add record).get id' = s.get id') := by
  constructor
  · exact lookupKey_insertKey_self s.records record.id record
  · intro h
    exact lookupKey_insertKey_of_ne s.records record.id id' record h

/-- Witness for C10: adding a record with an id already present replaces
the stored record, and an unrelated id still misses. -/
theorem add_replaces_silently_witness :
    ((EnforcementStore.mk
        [("e1", EnforcementRecord.new "w1" 111 222
            (EnforcementAction.Mute ⟨some 300, none⟩) "e1" 0)]).add
      (EnforcementRecord.new "w9" 999 888
        (EnforcementAction.Ban ⟨some 60, none⟩) "e1" 3)).get "e1"
      = some (EnforcementRecord.new "w9" 999 888
          (EnforcementAction.Ban ⟨some 60, none⟩) "e1" 3) :=
  (add_replaces_silently
      ⟨[("e1", EnforcementRecord.new "w1" 111 222
          (EnforcementAction.Mute ⟨some 300, none⟩) "e1" 0)]⟩
      (EnforcementRecord.new "w9" 999 888
        (EnforcementAction.Ban ⟨some 60, none⟩) "e1" 3) "x").1

/-! ## Concrete sample records -/

/-- An `Active` `Mute(300)` record, as produced by executing a freshly
created record at time 0. -/
def activeMuteRecord : EnforcementRecord :=
  { EnforcementRecord.new "w1" 111 222
      (EnforcementAction.Mute ⟨some 300, none⟩) "e1" 0 with
    state := .Active, reverse_at := some 300,
    executed_at := some 0, executed := true }

/-- A `Pending` `Kick` record with a 100-second pre-execution delay
(`execute_at = 100`), created at time 0. -/
def kickDelayRecord : EnforcementRecord :=
  EnforcementRecord.new "w2" 111 222
    (EnforcementAction.Kick ⟨some 100, none⟩) "e2" 0

/-! ## C3: order of handler reverse vs store cancel (corrected) -/

/-- C3 counterexample. On an `Active` record the Service's
`cancel_enforcement` performs the Store transition to `Cancelled` FIRST
and invokes the handler's `reverse` SECOND: the trace is
`[storeCancel, handlerReverse]`, in which `handlerReverse` does not occur
before `storeCancel` — the claimed order ("reverse is invoked before the
record transitions") does not hold. -/
theorem service_cancel_order_counterexample :
    EnforcementService.cancel_enforcement ⟨[("e1", activeMuteRecord)]⟩ "e1"
      = .ok (⟨[("e1", { activeMuteRecord with state := .Cancelled })]⟩,
             [Event.storeCancel "e1", Event.handlerReverse "e1"])
  ∧ occursBefore [Event.storeCancel "e1", Event.handlerReverse "e1"]
      (Event.handlerReverse "e1") (Event.storeCancel "e1") = false
  ∧ occursBefore [Event.storeCancel "e1", Event.handlerReverse "e1"]
      (Event.storeCancel "e1") (Event.handlerReverse "e1") = true :=
  ⟨rfl, by decide, by decide⟩

/-- C3 amended. The Service's `cancel_enforcement` on an `Active` record
transitions it to `Cancelled` in the Store first and invokes the
handler's `reverse` exactly once afterwards; on a `Pending` record it
transitions to `Cancelled` with no handler call at all. -/
theorem service_cancel_transition_then_reverse (s : EnforcementStore)
    (id : String) (r : EnforcementRecord) (hget : s.get id = some r) :
    (r.state = .Active →
      EnforcementService.cancel_enforcement s id
        = .ok (⟨setKey s.records id { r with state := .Cancelled }⟩,
               [Event.storeCancel id, Event.handlerReverse id]))
  ∧ (r.state = .Pending →
      EnforcementService.cancel_enforcement s id
        = .ok (⟨setKey s.records id { r with state := .Cancelled }⟩,
               [Event.storeCancel id])) := by
  constructor
  · intro ha
    simp [EnforcementService.cancel_enforcement, hget, ha,
      store_cancel_ok s id r hget (Or.inr ha)]
  · intro hp
    simp [EnforcementService.cancel_enforcement, hget, hp,
      store_cancel_ok s id r hget (Or.inl hp)]

/-- Witness for the amended C3 at a concrete `Active` record. -/
theorem service_cancel_transition_then_reverse_witness :
    EnforcementService.cancel_enforcement ⟨[("e1", activeMuteRecord)]⟩ "e1"
      = .ok (⟨setKey [("e1", activeMuteRecord)] "e1"
                { activeMuteRecord with state := .Cancelled }⟩,
             [Event.storeCancel "e1", Event.handlerReverse "e1"]) :=
  (service_cancel_transition_then_reverse
      ⟨[("e1", activeMuteRecord)]⟩ "e1" activeMuteRecord rfl).1 rfl

/-! ## C4: process_enforcement and due times (corrected) -/

/-- C4 counterexample. `process_enforcement` executes a `Pending` record
whose `execute_at` (100) is still in the future at `now = 0`: the record
is transitioned to `Completed` and the handler invoked, not left
unchanged — there is no due check on the `Pending` path. -/
theorem process_enforcement_ignores_due_counterexample :
    kickDelayRecord.state = .Pending
  ∧ kickDelayRecord.execute_at = 100
  ∧ kickDelayRecord.is_due_for_execution 0 = false
  ∧ EnforcementService.process_enforcement ⟨[("e2", kickDelayRecord)]⟩ "e2" 0
      = .ok (⟨[("e2", { kickDelayRecord with
                state := .Completed, executed_at := some 0,
                executed := true })]⟩,
             [Event.storeExecute "e2", Event.handlerExecute "e2"])
  ∧ ({ kickDelayRecord with
       state := .Completed, executed_at := some 0, executed := true }
        : EnforcementRecord) ≠ kickDelayRecord :=
  ⟨rfl, rfl, by decide, rfl, by decide⟩

/-- C4 amended. `process_enforcement` transitions a `Pending` record (and
invokes the handler's `execute`) unconditionally, whatever its
`execute_at` — the due filtering happens only in the sweep callers. An
`Active` record is reversed exactly when `reverse_at` is set and `≤ now`;
an `Active` record whose `reverse_at` is unset or in the future, and a
record in any other state, is a no-op. -/
theorem process_enforcement_behaviour (s : EnforcementStore) (id : String)
    (now : Nat) (r : EnforcementRecord) (hget : s.get id = some r) :
    (r.state = .Pending →
      ∃ r', r.execute now = .ok r' ∧
        EnforcementService.process_enforcement s id now
          = .ok (⟨setKey s.records id r'⟩,
                 [Event.storeExecute id, Event.handlerExecute id]))
  ∧ (r.state = .Active → ∀ t, r.reverse_at = some t → t ≤ now →
      EnforcementService.process_enforcement s id now
        = .ok (⟨setKey s.records id
                  { r with state := .Reversed, reversed_at := some now }⟩,
               [Event.storeReverse id, Event.handlerReverse id]))
  ∧ (r.state = .Active → ∀ t, r.reverse_at = some t → now < t →
      EnforcementService.process_enforcement s id now = .ok (s, []))
  ∧ (r.state = .Active → r.reverse_at = none →
      EnforcementService.process_enforcement s id now = .ok (s, []))
  ∧ ((r.state = .Reversed ∨ r.state = .Completed ∨ r.state = .Cancelled) →
      EnforcementService.process_enforcement s id now = .ok (s, [])) := by
  refine ⟨?_, ?_, ?_, ?_, ?_⟩
  · intro hp
    refine ⟨_, execute_pending_eq r now hp, ?_⟩
    simp [EnforcementService.process_enforcement, hget, hp,
      store_execute_ok s id now r _ hget (execute_pending_eq r now hp)]
  · intro ha t hrv hle
    simp [EnforcementService.process_enforcement, hget, ha, hrv, hle,
      store_reverse_ok s id now r _ hget (reverse_active_eq r now ha)]
  · intro ha t hrv hgt
    simp [EnforcementService.process_enforcement, hget, ha, hrv,
      show ¬t ≤ now from by omega]
  · intro ha hrv
    simp [EnforcementService.process_enforcement, hget, ha, hrv]
  · intro h3
    rcases h3 with h | h | h <;>
      simp [EnforcementService.process_enforcement, hget, h]

/-- Witness for the amended C4: the not-yet-due `Pending` kick record is
executed anyway. -/
theorem process_enforcement_behaviour_witness :
    ∃ r', kickDelayRecord.execute 0 = .ok r' ∧
      EnforcementService.process_enforcement ⟨[("e2", kickDelayRecord)]⟩ "e2" 0
        = .ok (⟨setKey [("e2", kickDelayRecord)] "e2" r'⟩,
               [Event.storeExecute "e2", Event.handlerExecute "e2"]) :=
  (process_enforcement_behaviour ⟨[("e2", kickDelayRecord)]⟩ "e2" 0
      kickDelayRecord rfl).1 rfl

/-! ## C5: registry dispatch and ValidationFailed (code bug) -/

/-- C5. Dispatching `execute` by the action's own kind through the
default registry returns `ValidationFailed` for every `Ban` and every
`Kick` action: `BanHandler::execute` and `KickHandler::execute` open with
a guard on their own kind (`if matches!(action.get_type(), Ban)` /
`... Kick`) that immediately returns `ValidationFailed("… action not
supported")`, dead-coding the rest of the handler (its payload match,
platform call and success logging can never run). Every other kind's
`execute`, and `reverse`, pass validation when dispatched by their own
kind. -/
theorem registry_dispatch_ban_kick_always_validation_failed :
    ActionHandlerRegistry.execute (.Ban ⟨some 300, none⟩)
        = .validationFailed "Ban action not supported"
  ∧ ActionHandlerRegistry.execute (.Kick ⟨some 10, none⟩)
        = .validationFailed "Kick action not supported"
  ∧ ActionHandlerRegistry.execute .None = .proceeds
  ∧ ActionHandlerRegistry.execute (.Mute ⟨some 300, none⟩) = .proceeds
  ∧ ActionHandlerRegistry.execute (.VoiceMute ⟨some 60, none⟩) = .proceeds
  ∧ ActionHandlerRegistry.execute (.VoiceDeafen ⟨some 60, none⟩) = .proceeds
  ∧ ActionHandlerRegistry.execute (.VoiceDisconnect ⟨some 0, none⟩) = .proceeds
  ∧ ActionHandlerRegistry.execute
      (.VoiceChannelHaunt ⟨some 3, some 10, some true, some 5⟩) = .proceeds
  ∧ ActionHandlerRegistry.reverse (.Ban ⟨some 300, none⟩) = .proceeds
  ∧ ActionHandlerRegistry.reverse (.Kick ⟨some 10, none⟩) = .proceeds :=
  ⟨rfl, rfl, rfl, rfl, rfl, rfl, rfl, rfl, rfl, rfl⟩

/-! ## C8: cancel_all_for_user characterised -/

/-- Generalised loop invariant for `cancel_all_for_user`: iterating over
the (still unvisited) suffix `l` of entries while the store holds
`done ++ l` — where `done` are the already-visited entries, whose keys
are disjoint from `l`'s — appends to the accumulator exactly the
cancelled versions of `l`'s matching entries and rewrites exactly those
entries in place. -/
theorem cancel_all_go (user_id guild_id : Nat)
    (l : List (String × EnforcementRecord)) :
    ∀ (done : List (String × EnforcementRecord)) (acc : List EnforcementRecord),
      ((done ++ l).map Prod.fst).Nodup →
      (∀ e ∈ l, e.2.id = e.1) →
      List.foldl (cancelAllStep user_id guild_id) (acc, ⟨done ++ l⟩) l =
        (acc ++ (l.filter (fun e => decide (cancelTarget user_id guild_id e.2))).map
            (fun e => { e.2 with state := .Cancelled }),
         ⟨done ++ l.map (fun e =>
            if cancelTarget user_id guild_id e.2 then
              (e.1, { e.2 with state := .Cancelled })
            else e)⟩) := by
  induction l with
  | nil => intro done acc _ _; simp
  | cons e rest ih =>
    obtain ⟨k, r⟩ := e
    intro done acc hnd hid
    have hrid : r.id = k := hid (k, r) (List.mem_cons_self _ _)
    have hnd' := hnd
    rw [List.map_append, List.map_cons, List.nodup_append] at hnd'
    obtain ⟨_, _, hdisj⟩ := hnd'
    have hknotdone : k ∉ done.map Prod.fst := fun hmem => hdisj hmem (by simp)
    by_cases hc : cancelTarget user_id guild_id r
    · have hget : (⟨done ++ (k, r) :: rest⟩ : EnforcementStore).get r.id = some r := by
        show lookupKey (done ++ (k, r) :: rest) r.id = some r
        rw [hrid, lookupKey_append_of_not_mem done _ k hknotdone]
        simp [lookupKey]
      have hcancel := store_cancel_ok ⟨done ++ (k, r) :: rest⟩ r.id r hget hc.2.2
      have hset : setKey (done ++ (k, r) :: rest) r.id { r with state := .Cancelled }
          = (done ++ [(k, { r with state := .Cancelled })]) ++ rest := by
        rw [hrid, setKey_append_of_not_mem done _ k _ hknotdone]
        simp [setKey]
      have hstep : cancelAllStep user_id guild_id
            (acc, ⟨done ++ (k, r) :: rest⟩) (k, r)
          = (acc ++ [{ r with state := .Cancelled }],
             ⟨(done ++ [(k, { r with state := .Cancelled })]) ++ rest⟩) := by
        simp only [cancelAllStep]
        rw [if_pos hc, hcancel]
        simp only [hset]
      have ihx := ih (done ++ [(k, { r with state := EnforcementState.Cancelled })])
        (acc ++ [{ r with state := EnforcementState.Cancelled }])
        (by simpa using hnd)
        (fun e he => hid e (List.mem_cons_of_mem _ he))
      rw [List.foldl_cons, hstep, ihx]
      simp [hc]
    · have hstep : cancelAllStep user_id guild_id
            (acc, ⟨done ++ (k, r) :: rest⟩) (k, r)
          = (acc, ⟨done ++ (k, r) :: rest⟩) := by
        simp only [cancelAllStep]
        rw [if_neg hc]
      have ihx := ih (done ++ [(k, r)]) acc (by simpa using hnd)
        (fun e he => hid e (List.mem_cons_of_mem _ he))
      rw [List.foldl_cons, hstep,
        show done ++ (k, r) :: rest = (done ++ [(k, r)]) ++ rest by simp,
        ihx]
      simp [hc]

/-- C8. For every well-formed store (distinct keys, each record stored
under its own `id`), `cancel_all_for_user` (a) rewrites in place exactly
the records of the given user/guild pair whose state is `Pending` or
`Active`, setting their state to `Cancelled` and touching no other field;
(b) returns exactly those records in their post-cancellation state, in
store order; and (c) leaves every other entry — other users/guilds, and
same-pair records already terminal — byte-for-byte unchanged. -/
theorem cancel_all_for_user_frame (s : EnforcementStore)
    (user_id guild_id : Nat)
    (hnd : (s.records.map Prod.fst).Nodup)
    (hid : ∀ e ∈ s.records, e.2.id = e.1) :
    s.cancel_all_for_user user_id guild_id =
      ((s.records.filter (fun e => decide (cancelTarget user_id guild_id e.2))).map
          (fun e => { e.2 with state := .Cancelled }),
       ⟨s.records.map (fun e =>
          if cancelTarget user_id guild_id e.2 then
            (e.1, { e.2 with state := .Cancelled })
          else e)⟩) := by
  have h := cancel_all_go user_id guild_id s.records [] []
    (by simpa using hnd) hid
  simpa [EnforcementStore.cancel_all_for_user] using h

/-- A four-record store: a `Pending` and an `Active` record of user 111
in guild 222, a `Completed` one of the same pair, and a `Pending` record
of another user. -/
def sampleStoreRecords : List (String × EnforcementRecord) :=
  [("p1", EnforcementRecord.new "w1" 111 222
      (EnforcementAction.Mute ⟨some 300, none⟩) "p1" 0),
   ("a1", { EnforcementRecord.new "w2" 111 222
        (EnforcementAction.VoiceMute ⟨some 60, none⟩) "a1" 0 with
      state := .Active, reverse_at := some 60,
      executed_at := some 0, executed := true }),
   ("c1", { EnforcementRecord.new "w3" 111 222
        (EnforcementAction.Kick ⟨some 0, none⟩) "c1" 0 with
      state := .Completed, executed_at := some 0, executed := true }),
   ("q1", EnforcementRecord.new "w4" 999 222
      (EnforcementAction.Mute ⟨some 300, none⟩) "q1" 0)]

/-- Witness for C8 on the four-record store: user 111's `Pending` and
`Active` records are cancelled and returned, the `Completed` one and the
other user's record stay untouched. -/
theorem cancel_all_for_user_frame_witness :
    (⟨sampleStoreRecords⟩ : EnforcementStore).cancel_all_for_user 111 222 =
      ((sampleStoreRecords.filter
          (fun e => decide (cancelTarget 111 222 e.2))).map
          (fun e => { e.2 with state := .Cancelled }),
       ⟨sampleStoreRecords.map (fun e =>
          if cancelTarget 111 222 e.2 then
            (e.1, { e.2 with state := .Cancelled })
          else e)⟩) :=
  cancel_all_for_user_frame ⟨sampleStoreRecords⟩ 111 222
    (by decide) (by decide)
